import Mathlib

/-!
Shallow embedding of the ghost-relay server (src/index.js): presence maps,
store-and-forward message queue, identity directory with peer-id history,
and the socket/HTTP handlers the claims are about.
-/

namespace GhostRelay

/-- A JS `Map<string, string>` modelled as an association list in insertion
order: `set` overwrites in place or appends, `get` looks up, `delete` removes
the key. -/
abbrev SMap := List (String × String)

def mapGet : SMap → String → Option String
  | [], _ => none
  | (k, v) :: rest, key => if k = key then some v else mapGet rest key

def mapSet : SMap → String → String → SMap
  | [], key, val => [(key, val)]
  | (k, v) :: rest, key, val =>
    if k = key then (key, val) :: rest else (k, v) :: mapSet rest key val

def mapDelete : SMap → String → SMap
  | [], _ => []
  | (k, v) :: rest, key =>
    if k = key then mapDelete rest key else (k, v) :: mapDelete rest key

/-- A row of the `messages` table (`id` primary key, nullable `to_hash` and
`to_peer`, `data`, `timestamp`). -/
structure Message where
  id : String
  to_hash : Option String
  to_peer : Option String
  data : String
  timestamp : Nat
deriving DecidableEq, Repr

/-- A row of the `identities` table (`username` primary key). -/
structure Identity where
  username : String
  encrypted_blob : String
  peer_id : Option String
  display_name : Option String
  timestamp : Nat
deriving DecidableEq, Repr

/-- A row of the append-only `peerid_history` table. -/
structure HistoryRecord where
  username_hash : String
  display_name : Option String
  old_peer_id : Option String
  new_peer_id : String
  source : String
  timestamp : Nat
deriving DecidableEq, Repr

/-- Server state: the three durable tables (rows kept in insertion order)
and the two in-memory presence maps `onlinePeers` and `onlineHashes`. -/
structure ServerState where
  messages : List Message
  identities : List Identity
  history : List HistoryRecord
  onlinePeers : SMap
  onlineHashes : SMap
deriving DecidableEq, Repr

/-- Per-socket state: the socket id plus the `socket.peerId` and
`socket.mobileHash` fields assigned on join. -/
structure Socket where
  sid : String
  peerId : Option String
  mobileHash : Option String
deriving DecidableEq, Repr

/-- Events emitted over sockets by the handlers. -/
inductive OutEvent where
  | relayMessage (sid : String) (id : String) (data : String)
  | signal (sid : String) (fromId : Option String) (data : String)
  | typing (sid : String) (fromId : Option String) (isTyping : Bool)
deriving DecidableEq, Repr

/-- Side effects of the send handler, in the order they are performed. -/
inductive Effect where
  | dbInsert (id : String)
  | emit (sid : String) (id : String) (data : String)
deriving DecidableEq, Repr

def isEmit : Effect → Bool
  | .emit _ _ _ => true
  | .dbInsert _ => false

inductive SendResponse where
  | badRequest (error : String)
  | ok (liveDelivered : Bool)
deriving DecidableEq, Repr

/-- A JSON field value appearing in the identity response body. -/
inductive JsonVal where
  | bool (b : Bool)
  | str (s : String)
deriving DecidableEq, Repr

abbrev JsonObj := List (String × JsonVal)

inductive IdentityResponse where
  | badRequest (error : String)
  | ok (body : JsonObj)
deriving DecidableEq, Repr

/-- Field lookup inside an identity response body (none on an error response
or when the field is absent). -/
def respField : IdentityResponse → String → Option JsonVal
  | .badRequest _, _ => none
  | .ok body, key => (body.find? (fun kv => kv.1 = key)).map (fun kv => kv.2)

inductive DirectoryResponse where
  | notFound
  | found (peerId : Option String) (displayName : Option String)
deriving DecidableEq, Repr

/-- The SQL `INSERT ... ON CONFLICT (id) DO NOTHING` on the `messages`
table: append the row unless one with the same id exists. -/
def insertMessage (msgs : List Message) (m : Message) : List Message :=
  if msgs.any (fun x => x.id = m.id) then msgs else msgs ++ [m]

/-- Join-time drain for a hash: `SELECT * FROM messages WHERE to_hash = $1`
(no ORDER BY; rows come back in table order). -/
def drainHashRows (msgs : List Message) (h : String) : List Message :=
  msgs.filter (fun m => m.to_hash = some h)

/-- Join-time legacy drain: `SELECT * FROM messages WHERE to_peer = $1 AND
to_hash IS NULL` (no ORDER BY). -/
def drainLegacyRows (msgs : List Message) (p : String) : List Message :=
  msgs.filter (fun m => m.to_peer = some p ∧ m.to_hash = none)

/-- Creation-time comparison used by `ORDER BY timestamp ASC`. -/
def tsLE (a b : Message) : Prop := a.timestamp ≤ b.timestamp

instance : DecidableRel tsLE := fun a b => Nat.decLe a.timestamp b.timestamp

instance : IsTotal Message tsLE := ⟨fun a b => Nat.le_total a.timestamp b.timestamp⟩

instance : IsTrans Message tsLE := ⟨fun _ _ _ hab hbc => Nat.le_trans hab hbc⟩

/-- `GET /inbox/hash/:hash`: rows with `to_hash = $1`, ORDER BY timestamp
ASC. -/
def inboxByHash (msgs : List Message) (h : String) : List Message :=
  List.insertionSort tsLE (msgs.filter (fun m => m.to_hash = some h))

/-- `GET /inbox/:peerId`: rows with `to_peer = $1`, ORDER BY timestamp
ASC. -/
def inboxByPeer (msgs : List Message) (p : String) : List Message :=
  List.insertionSort tsLE (msgs.filter (fun m => m.to_peer = some p))

/-- Request body of `POST /send`; the JSON field named `to` is `toPeer`
here; a JS-falsy (missing or empty) field is `none`. -/
structure SendRequest where
  toHash : Option String
  toPeer : Option String
  data : Option String
  id : Option String
deriving DecidableEq, Repr

/-- The `POST /send` handler: validate, insert the row (idempotent on id),
then attempt live delivery, hash map first with peer-id fallback only when
the hash lookup misses; respond with `liveDelivered`. -/
def handleSend (st : ServerState) (req : SendRequest) (now : Nat) :
    ServerState × List Effect × SendResponse :=
  match req.data, req.id with
  | some data, some id =>
    if req.toHash = none ∧ req.toPeer = none then
      (st, [], .badRequest "Missing toHash or to")
    else
      let targetHash := req.toHash
      let targetPeer := req.toPeer
      let messages1 := insertMessage st.messages ⟨id, targetHash, targetPeer, data, now⟩
      let hashHit : Option String :=
        match targetHash with
        | some h => mapGet st.onlineHashes h
        | none => none
      match hashHit with
      | some sid =>
        ({ st with messages := messages1 },
         [.dbInsert id, .emit sid id data], .ok true)
      | none =>
        match targetPeer with
        | some p =>
          match mapGet st.onlinePeers p with
          | some sid =>
            ({ st with messages := messages1 },
             [.dbInsert id, .emit sid id data], .ok true)
          | none => ({ st with messages := messages1 }, [.dbInsert id], .ok false)
        | none => ({ st with messages := messages1 }, [.dbInsert id], .ok false)
  | _, _ => (st, [], .badRequest "Missing data or id")

/-- Payload of the socket `join` event. -/
structure JoinPayload where
  peerId : Option String
  mobileHash : Option String
deriving DecidableEq, Repr

/-- The socket `join` handler: register the peer id, then register the hash
and drain hash-addressed messages, then drain legacy peer-addressed
messages with no hash set. -/
def handleJoin (st : ServerState) (sock : Socket) (payload : JoinPayload) :
    ServerState × Socket × List OutEvent :=
  let step1 : ServerState × Socket :=
    match payload.peerId with
    | some pid =>
      ({ st with onlinePeers := mapSet st.onlinePeers pid sock.sid },
       { sock with peerId := some pid })
    | none => (st, sock)
  let step2 : ServerState × Socket × List OutEvent :=
    match payload.mobileHash with
    | some h =>
      ({ step1.1 with onlineHashes := mapSet step1.1.onlineHashes h sock.sid },
       { step1.2 with mobileHash := some h },
       (drainHashRows step1.1.messages h).map
         (fun m => OutEvent.relayMessage sock.sid m.id m.data))
    | none => (step1.1, step1.2, [])
  let legacyEvents : List OutEvent :=
    match payload.peerId with
    | some pid =>
      (drainLegacyRows step2.1.messages pid).map
        (fun m => OutEvent.relayMessage sock.sid m.id m.data)
    | none => []
  (step2.1, step2.2.1, step2.2.2 ++ legacyEvents)

/-- The socket `disconnect` handler: delete the socket's registered keys
from the presence maps, unconditionally by key. -/
def handleDisconnect (st : ServerState) (sock : Socket) : ServerState :=
  let st1 :=
    match sock.peerId with
    | some pid => { st with onlinePeers := mapDelete st.onlinePeers pid }
    | none => st
  match sock.mobileHash with
  | some h => { st1 with onlineHashes := mapDelete st1.onlineHashes h }
  | none => st1

/-- Presence resolution `onlinePeers.get(to) || onlineHashes.get(to)`. -/
def lookup (st : ServerState) (t : String) : Option String :=
  (mapGet st.onlinePeers t).orElse (fun _ => mapGet st.onlineHashes t)

/-- The socket `signal` handler: forward to the resolved target tagged with
`socket.peerId || socket.mobileHash`, or silently do nothing. -/
def handleSignal (st : ServerState) (sock : Socket) (toId data : String) :
    List OutEvent :=
  match lookup st toId with
  | some targetSocketId =>
    [.signal targetSocketId (sock.peerId.orElse (fun _ => sock.mobileHash)) data]
  | none => []

/-- The socket `typing` handler, same resolution and tagging as `signal`. -/
def handleTyping (st : ServerState) (sock : Socket) (toId : String) (isTyping : Bool) :
    List OutEvent :=
  match lookup st toId with
  | some targetSocketId =>
    [.typing targetSocketId (sock.peerId.orElse (fun _ => sock.mobileHash)) isTyping]
  | none => []

/-- Row lookup `SELECT ... FROM identities WHERE username = $1`. -/
def findIdentity (ids : List Identity) (u : String) : Option Identity :=
  ids.find? (fun i => i.username = u)

/-- The SQL `INSERT ... ON CONFLICT (username) DO UPDATE` on `identities`:
replace the row with a matching username or append. -/
def saveIdentity (ids : List Identity) (row : Identity) : List Identity :=
  if ids.any (fun i => i.username = row.username) then
    ids.map (fun i => if i.username = row.username then row else i)
  else ids ++ [row]

/-- Request body of `POST /identity`. -/
structure IdentityRequest where
  username : Option String
  blob : Option String
  peerId : Option String
  displayName : Option String
deriving DecidableEq, Repr

/-- The `POST /identity` handler: validate, read the existing row, append a
history record for a first registration or a peer-id change, then upsert
the row keeping the stored peer id and display name when none are supplied.
The success response body is exactly one field, `success = true`. -/
def handleIdentity (st : ServerState) (req : IdentityRequest) (now : Nat) :
    ServerState × IdentityResponse :=
  match req.username, req.blob with
  | some username, some blob =>
    let existing := findIdentity st.identities username
    let oldPeerId : Option String :=
      match existing with
      | some e => e.peer_id
      | none => none
    let newPeerId := req.peerId
    let history1 : List HistoryRecord :=
      match newPeerId with
      | some np =>
        match oldPeerId with
        | some op =>
          if op ≠ np then
            st.history ++ [⟨username, req.displayName, some op, np, "PEERID_CHANGE", now⟩]
          else st.history
        | none =>
          st.history ++ [⟨username, req.displayName, none, np, "FIRST_REGISTRATION", now⟩]
      | none => st.history
    let finalPeerId := newPeerId.orElse (fun _ => oldPeerId)
    let finalDisplayName :=
      req.displayName.orElse (fun _ =>
        match existing with
        | some e => e.display_name
        | none => none)
    let ids1 := saveIdentity st.identities ⟨username, blob, finalPeerId, finalDisplayName, now⟩
    ({ st with identities := ids1, history := history1 },
     .ok [("success", .bool true)])
  | _, _ => (st, .badRequest "Missing fields")

/-- The `GET /directory/:hashKey` handler. -/
def lookupDirectory (ids : List Identity) (hashKey : String) : DirectoryResponse :=
  match findIdentity ids hashKey with
  | some r => .found r.peer_id r.display_name
  | none => .notFound

/-! Helper lemmas about the map operations and the stores. -/

theorem mapGet_mapSet_self (m : SMap) (k v : String) :
    mapGet (mapSet m k v) k = some v := by
  induction m with
  | nil => simp [mapSet, mapGet]
  | cons head rest ih =>
    obtain ⟨a, b⟩ := head
    by_cases h : a = k
    · simp [mapSet, mapGet, h]
    · simp [mapSet, mapGet, h, ih]

theorem mapGet_mapSet_ne (m : SMap) (k k' v : String) (h : k' ≠ k) :
    mapGet (mapSet m k v) k' = mapGet m k' := by
  induction m with
  | nil => simp [mapSet, mapGet, Ne.symm h]
  | cons head rest ih =>
    obtain ⟨a, b⟩ := head
    by_cases ha : a = k
    · subst ha
      simp [mapSet, mapGet, Ne.symm h]
    · simp [mapSet, mapGet, ha, ih]

theorem mapGet_mapDelete_self (m : SMap) (k : String) :
    mapGet (mapDelete m k) k = none := by
  induction m with
  | nil => simp [mapDelete, mapGet]
  | cons head rest ih =>
    obtain ⟨a, b⟩ := head
    by_cases h : a = k
    · simp [mapDelete, mapGet, h, ih]
    · simp [mapDelete, mapGet, h, ih]

theorem mapGet_mapDelete_ne (m : SMap) (k k' : String) (h : k' ≠ k) :
    mapGet (mapDelete m k) k' = mapGet m k' := by
  induction m with
  | nil => simp [mapDelete, mapGet]
  | cons head rest ih =>
    obtain ⟨a, b⟩ := head
    by_cases ha : a = k
    · subst ha
      simp [mapDelete, mapGet, Ne.symm h, ih]
    · simp [mapDelete, mapGet, ha, ih]

theorem insertMessage_pairwise (msgs : List Message) (m : Message)
    (hub : ∀ x ∈ msgs, x.timestamp ≤ m.timestamp)
    (hWF : msgs.Pairwise tsLE) : (insertMessage msgs m).Pairwise tsLE := by
  unfold insertMessage
  split
  · exact hWF
  · refine List.pairwise_append.2 ⟨hWF, List.pairwise_singleton tsLE m, ?_⟩
    intro a ha b hb
    have hb1 : b = m := by simpa using hb
    subst hb1
    exact hub a ha

/-- Every state produced by the send handler has a message list that is
either the old one or the old one with one row of timestamp `now`
idempotently inserted; hence enqueueing with a clock that never runs
backwards keeps the store in non-decreasing timestamp order. -/
theorem handleSend_preserves_monotone (st : ServerState) (req : SendRequest) (now : Nat)
    (hub : ∀ x ∈ st.messages, x.timestamp ≤ now)
    (hWF : st.messages.Pairwise tsLE) :
    (handleSend st req now).1.messages.Pairwise tsLE := by
  rcases req with ⟨th, tp, d, i⟩
  cases d <;> cases i <;> unfold handleSend <;> simp only
  · exact hWF
  · exact hWF
  · exact hWF
  · split
    · exact hWF
    · split
      · exact insertMessage_pairwise _ _ hub hWF
      · split
        · split
          · exact insertMessage_pairwise _ _ hub hWF
          · exact insertMessage_pairwise _ _ hub hWF
        · exact insertMessage_pairwise _ _ hub hWF

/-! Claim theorems. -/

/-- C1: every retrieval of pending messages for a recipient R (the two
join-time drains and the two inbox endpoints) returns only messages
addressed to R, in non-decreasing creation-time order. The join drains read
the table in row order, so this holds for every store whose rows are in
non-decreasing timestamp order, an invariant `handleSend_preserves_monotone`
shows is maintained by enqueueing with a monotone clock. -/
theorem drain_inbox_only_recipient_ordered (msgs : List Message) (R : String)
    (hWF : msgs.Pairwise tsLE) :
    (∀ m ∈ drainHashRows msgs R, m.to_hash = some R)
  ∧ (drainHashRows msgs R).Pairwise tsLE
  ∧ (∀ m ∈ drainLegacyRows msgs R, m.to_peer = some R)
  ∧ (drainLegacyRows msgs R).Pairwise tsLE
  ∧ (∀ m ∈ inboxByHash msgs R, m.to_hash = some R)
  ∧ (inboxByHash msgs R).Pairwise tsLE
  ∧ (∀ m ∈ inboxByPeer msgs R, m.to_peer = some R)
  ∧ (inboxByPeer msgs R).Pairwise tsLE := by
  refine ⟨?_, ?_, ?_, ?_, ?_, ?_, ?_, ?_⟩
  · intro m hm
    have := List.mem_filter.1 hm
    simpa using this.2
  · exact hWF.sublist (List.filter_sublist _)
  · intro m hm
    have := List.mem_filter.1 hm
    have h2 := of_decide_eq_true this.2
    exact h2.1
  · exact hWF.sublist (List.filter_sublist _)
  · intro m hm
    have hmem : m ∈ msgs.filter (fun x => decide (x.to_hash = some R)) :=
      (List.mem_insertionSort tsLE).1 hm
    simpa using (List.mem_filter.1 hmem).2
  · exact List.sorted_insertionSort tsLE _
  · intro m hm
    have hmem : m ∈ msgs.filter (fun x => decide (x.to_peer = some R)) :=
      (List.mem_insertionSort tsLE).1 hm
    simpa using (List.mem_filter.1 hmem).2
  · exact List.sorted_insertionSort tsLE _

/-- Sample store used by the C1 witness. -/
def sampleMessages : List Message :=
  [⟨"m1", some "r1", none, "d1", 1⟩,
   ⟨"m2", some "r1", some "r1", "d2", 2⟩,
   ⟨"m3", none, some "r1", "d3", 3⟩,
   ⟨"m4", some "other", none, "d4", 4⟩]

theorem drain_inbox_only_recipient_ordered_witness :
    sampleMessages.Pairwise tsLE
  ∧ ((∀ m ∈ drainHashRows sampleMessages "r1", m.to_hash = some "r1")
   ∧ (drainHashRows sampleMessages "r1").Pairwise tsLE
   ∧ (∀ m ∈ drainLegacyRows sampleMessages "r1", m.to_peer = some "r1")
   ∧ (drainLegacyRows sampleMessages "r1").Pairwise tsLE
   ∧ (∀ m ∈ inboxByHash sampleMessages "r1", m.to_hash = some "r1")
   ∧ (inboxByHash sampleMessages "r1").Pairwise tsLE
   ∧ (∀ m ∈ inboxByPeer sampleMessages "r1", m.to_peer = some "r1")
   ∧ (inboxByPeer sampleMessages "r1").Pairwise tsLE) :=
  ⟨by decide, drain_inbox_only_recipient_ordered sampleMessages "r1" (by decide)⟩

/-- A server state with empty tables and empty presence maps. -/
def emptyState : ServerState := ⟨[], [], [], [], []⟩

/-- Scenario step for the C2 counterexample: socket S1 joins with X. -/
def joinS1 : ServerState × Socket × List OutEvent :=
  handleJoin emptyState ⟨"S1", none, none⟩ ⟨some "X", none⟩

/-- Scenario step for the C2 counterexample: socket S2 re-registers X. -/
def joinS2 : ServerState × Socket × List OutEvent :=
  handleJoin joinS1.1 ⟨"S2", none, none⟩ ⟨some "X", none⟩

/-- C2 counterexample: identifier X is registered by socket S1, then
re-registered by socket S2; the lookup does return S2's handle, but S1's
disconnect then deletes the mapping by key, so X no longer resolves at all,
against the claim that C2's mapping survives the stale disconnect. -/
theorem stale_disconnect_clobbers_cx :
    lookup joinS2.1 "X" = some "S2"
  ∧ lookup (handleDisconnect joinS2.1 joinS1.2.1) "X" = none := by decide

/-- C2 amended: after identifier X is registered by connection C1 and
re-registered by connection C2, lookup of X returns C2's handle; but the
disconnect driven by C1 removes the mapping for X unconditionally (delete
by key, with no check that it still points at the disconnecting
connection's handle), so C2's registration is clobbered. -/
theorem rejoin_then_stale_disconnect (st : ServerState) (s1 s2 : Socket) (X : String) :
    let j1 := handleJoin st s1 ⟨some X, none⟩
    let j2 := handleJoin j1.1 s2 ⟨some X, none⟩
    lookup j2.1 X = some s2.sid
  ∧ mapGet (handleDisconnect j2.1 j1.2.1).onlinePeers X = none := by
  obtain ⟨sid1, p1, h1⟩ := s1
  cases h1 <;>
    simp [handleJoin, handleDisconnect, lookup, Option.orElse,
      mapGet_mapSet_self, mapGet_mapDelete_self]

/-- C10: a connection that joins with identifier X and later joins with a
different identifier Y of the same kind keeps both X and Y mapped to its
handle (the earlier mapping is not removed on re-join); its disconnect
unregisters only Y, the identifier recorded by the most recent join, so X
survives and still resolves to the closed connection's handle. -/
theorem rejoin_preserves_earlier_identifier (st : ServerState) (s : Socket) (X Y : String)
    (hXY : X ≠ Y) :
    let j1 := handleJoin st s ⟨some X, none⟩
    let j2 := handleJoin j1.1 j1.2.1 ⟨some Y, none⟩
    let st3 := handleDisconnect j2.1 j2.2.1
    lookup j2.1 X = some s.sid
  ∧ lookup j2.1 Y = some s.sid
  ∧ mapGet st3.onlinePeers Y = none
  ∧ lookup st3 X = some s.sid := by
  obtain ⟨sid, p0, h0⟩ := s
  cases h0 <;>
    simp [handleJoin, handleDisconnect, lookup, Option.orElse,
      mapGet_mapSet_self, mapGet_mapDelete_self,
      mapGet_mapSet_ne _ _ _ _ hXY, mapGet_mapDelete_ne _ _ _ hXY]

/-- Scenario step for the C10 witness: socket S joins with X. -/
def joinX : ServerState × Socket × List OutEvent :=
  handleJoin emptyState ⟨"S", none, none⟩ ⟨some "X", none⟩

/-- Scenario step for the C10 witness: the same socket later joins with Y. -/
def joinXY : ServerState × Socket × List OutEvent :=
  handleJoin joinX.1 joinX.2.1 ⟨some "Y", none⟩

theorem rejoin_preserves_earlier_identifier_witness :
    ("X" : String) ≠ "Y"
  ∧ (lookup joinXY.1 "X" = some (Socket.sid ⟨"S", none, none⟩)
   ∧ lookup joinXY.1 "Y" = some (Socket.sid ⟨"S", none, none⟩)
   ∧ mapGet (handleDisconnect joinXY.1 joinXY.2.1).onlinePeers "Y" = none
   ∧ lookup (handleDisconnect joinXY.1 joinXY.2.1) "X" = some (Socket.sid ⟨"S", none, none⟩)) :=
  ⟨by decide,
   rejoin_preserves_earlier_identifier emptyState ⟨"S", none, none⟩ "X" "Y" (by decide)⟩

theorem insertMessage_fresh (msgs : List Message) (m : Message)
    (h : ∀ x ∈ msgs, x.id ≠ m.id) : insertMessage msgs m = msgs ++ [m] := by
  unfold insertMessage
  rw [if_neg]
  simpa [List.any_eq_true] using h

theorem insertMessage_dup (msgs : List Message) (m : Message)
    (h : ∃ x ∈ msgs, x.id = m.id) : insertMessage msgs m = msgs := by
  unfold insertMessage
  rw [if_pos]
  simpa [List.any_eq_true] using h

/-- Effect trace and response of a validated send, decided by the hash map
first and the peer map only on a hash miss. -/
def sendOutcome (st : ServerState) (th tp : Option String) (d i : String) :
    List Effect × SendResponse :=
  match (match th with | some h => mapGet st.onlineHashes h | none => none) with
  | some sid => ([Effect.dbInsert i, Effect.emit sid i d], SendResponse.ok true)
  | none =>
    match tp with
    | some p =>
      match mapGet st.onlinePeers p with
      | some sid => ([Effect.dbInsert i, Effect.emit sid i d], SendResponse.ok true)
      | none => ([Effect.dbInsert i], SendResponse.ok false)
    | none => ([Effect.dbInsert i], SendResponse.ok false)

/-- Characterization of the send handler on a validated request: the state
carries the idempotent insert, and the effect trace and response are given
by `sendOutcome`. -/
theorem handleSend_valid_eq (st : ServerState) (th tp : Option String) (d i : String)
    (now : Nat) (hr : ¬(th = none ∧ tp = none)) :
    handleSend st ⟨th, tp, some d, some i⟩ now
      = ({ st with messages := insertMessage st.messages ⟨i, th, tp, d, now⟩ },
         sendOutcome st th tp d i) := by
  unfold handleSend sendOutcome
  dsimp only
  rw [if_neg hr]
  split
  · rfl
  · split
    · split
      · rfl
      · rfl
    · rfl

/-- C3: enqueueing the same message id twice leaves exactly one stored copy,
namely the first, and the duplicate enqueue is answered with a success
response, not an error. -/
theorem enqueue_idempotent (st : ServerState) (req1 req2 : SendRequest)
    (i d1 : String) (now1 now2 : Nat)
    (h1i : req1.id = some i) (h2i : req2.id = some i)
    (h1d : req1.data = some d1) (h2d : ∃ d2, req2.data = some d2)
    (h1r : ¬(req1.toHash = none ∧ req1.toPeer = none))
    (h2r : ¬(req2.toHash = none ∧ req2.toPeer = none))
    (hfresh : ∀ m ∈ st.messages, m.id ≠ i) :
    let r1 := handleSend st req1 now1
    let r2 := handleSend r1.1 req2 now2
    r1.1.messages = st.messages ++ [⟨i, req1.toHash, req1.toPeer, d1, now1⟩]
  ∧ r2.1.messages = r1.1.messages
  ∧ r1.1.messages.countP (fun m => m.id = i) = 1
  ∧ ∃ b, r2.2.2 = SendResponse.ok b := by
  obtain ⟨d2, h2d⟩ := h2d
  rcases req1 with ⟨th1, tp1, d1o, i1o⟩
  rcases req2 with ⟨th2, tp2, d2o, i2o⟩
  simp only at h1i h2i h1d h2d
  subst h1i h2i h1d h2d
  have e1 := handleSend_valid_eq st th1 tp1 d1 i now1 h1r
  have hmsg1 : (handleSend st ⟨th1, tp1, some d1, some i⟩ now1).1.messages
      = st.messages ++ [⟨i, th1, tp1, d1, now1⟩] := by
    rw [e1]
    exact insertMessage_fresh st.messages ⟨i, th1, tp1, d1, now1⟩ hfresh
  refine ⟨hmsg1, ?_, ?_, ?_⟩
  · have e2 := handleSend_valid_eq (handleSend st ⟨th1, tp1, some d1, some i⟩ now1).1
      th2 tp2 d2 i now2 h2r
    rw [e2]
    exact insertMessage_dup _ _ ⟨⟨i, th1, tp1, d1, now1⟩, by rw [hmsg1]; simp, rfl⟩
  · rw [hmsg1, List.countP_append]
    have hz : st.messages.countP (fun m => decide (m.id = i)) = 0 :=
      List.countP_eq_zero.2 (fun m hm => by simpa using hfresh m hm)
    simp [hz]
  · have e2 := handleSend_valid_eq (handleSend st ⟨th1, tp1, some d1, some i⟩ now1).1
      th2 tp2 d2 i now2 h2r
    rw [e2]
    unfold sendOutcome
    dsimp only
    split
    · exact ⟨true, rfl⟩
    · split
      · split
        · exact ⟨true, rfl⟩
        · exact ⟨false, rfl⟩
      · exact ⟨false, rfl⟩

/-- First send request of the C3 witness. -/
def sendReq1 : SendRequest := ⟨some "H", none, some "payload1", some "mid"⟩

/-- Duplicate-id send request of the C3 witness. -/
def sendReq2 : SendRequest := ⟨some "H", none, some "payload2", some "mid"⟩

theorem enqueue_idempotent_witness :
    (handleSend emptyState sendReq1 1).1.messages = [⟨"mid", some "H", none, "payload1", 1⟩]
  ∧ (handleSend (handleSend emptyState sendReq1 1).1 sendReq2 2).1.messages
      = (handleSend emptyState sendReq1 1).1.messages
  ∧ (handleSend emptyState sendReq1 1).1.messages.countP (fun m => m.id = "mid") = 1
  ∧ ∃ b, (handleSend (handleSend emptyState sendReq1 1).1 sendReq2 2).2.2
      = SendResponse.ok b := by
  have := enqueue_idempotent emptyState sendReq1 sendReq2
    "mid" "payload1" 1 2 rfl rfl rfl ⟨"payload2", rfl⟩
    (by decide) (by decide) (by decide)
  simpa using this

/-- C9: a send request missing the payload, missing the id, or naming
neither a hash nor a peer recipient is rejected synchronously with a
validation error; the state, in particular the message store, is unchanged
and no effect is performed. -/
theorem send_validation_rejects (st : ServerState) (req : SendRequest) (now : Nat)
    (h : req.data = none ∨ req.id = none ∨ (req.toHash = none ∧ req.toPeer = none)) :
    (handleSend st req now).1 = st
  ∧ (handleSend st req now).2.1 = []
  ∧ ∃ e, (handleSend st req now).2.2 = SendResponse.badRequest e := by
  rcases req with ⟨th, tp, d, i⟩
  simp only at h
  rcases h with h | h | h
  · subst h
    cases i <;> simp [handleSend]
  · subst h
    cases d <;> simp [handleSend]
  · obtain ⟨h1, h2⟩ := h
    subst h1 h2
    cases d <;> cases i <;> simp [handleSend]

/-- A server state with one stored message, used by the C9 witness. -/
def oneMessageState : ServerState := ⟨[⟨"m0", some "H", none, "d0", 0⟩], [], [], [], []⟩

/-- A send request naming no recipient, used by the C9 witness. -/
def noRecipientReq : SendRequest := ⟨none, none, some "payload", some "mid"⟩

theorem send_validation_rejects_witness :
    (handleSend oneMessageState noRecipientReq 7).1 = oneMessageState
  ∧ (handleSend oneMessageState noRecipientReq 7).2.1 = []
  ∧ ∃ e, (handleSend oneMessageState noRecipientReq 7).2.2 = SendResponse.badRequest e :=
  send_validation_rejects oneMessageState noRecipientReq 7 (Or.inr (Or.inr ⟨rfl, rfl⟩))

/-- C5: on a valid send the durable store write is the first effect and
every later effect is a live push; when a hash target is given and the hash
presence map hits, the push goes to the hash map's handle and the outcome is
independent of the peer-id map (the peer map is consulted only on a hash
miss); on a hash miss, or with no hash target, a registered peer target
receives the push; and the response reports in liveDelivered exactly whether
a live push occurred. -/
theorem send_store_then_deliver (st : ServerState) (req : SendRequest) (now : Nat)
    (i d : String) (hi : req.id = some i) (hd : req.data = some d)
    (hr : ¬(req.toHash = none ∧ req.toPeer = none)) :
    (handleSend st req now).2.1.head? = some (Effect.dbInsert i)
  ∧ (∀ e ∈ (handleSend st req now).2.1.tail, isEmit e = true)
  ∧ (∀ h sid, req.toHash = some h → mapGet st.onlineHashes h = some sid →
       (handleSend st req now).2.1 = [Effect.dbInsert i, Effect.emit sid i d]
     ∧ ∀ peers2 : SMap,
         (handleSend { st with onlinePeers := peers2 } req now).2
           = (handleSend st req now).2)
  ∧ (∀ p sid,
       (req.toHash = none ∨ ∃ h, req.toHash = some h ∧ mapGet st.onlineHashes h = none) →
       req.toPeer = some p → mapGet st.onlinePeers p = some sid →
       (handleSend st req now).2.1 = [Effect.dbInsert i, Effect.emit sid i d])
  ∧ (handleSend st req now).2.2
      = SendResponse.ok ((handleSend st req now).2.1.any isEmit) := by
  rcases req with ⟨th, tp, d0, i0⟩
  simp only at hi hd hr
  subst hi hd
  rw [handleSend_valid_eq st th tp d i now hr]
  cases th with
  | some h =>
    cases hh : mapGet st.onlineHashes h with
    | some sid =>
      have outc : sendOutcome st (some h) tp d i
          = ([Effect.dbInsert i, Effect.emit sid i d], SendResponse.ok true) := by
        unfold sendOutcome
        dsimp only
        simp only [hh]
      refine ⟨?_, ?_, ?_, ?_, ?_⟩
      · simp [outc]
      · simp [outc, isEmit]
      · intro h2 sid2 hh2 hg
        injection hh2 with he
        subst he
        rw [hh] at hg
        injection hg with hg2
        subst hg2
        refine ⟨by simp [outc], ?_⟩
        intro peers2
        rw [handleSend_valid_eq { st with onlinePeers := peers2 } (some h) tp d i now hr]
        simp [sendOutcome, hh]
      · intro p sid2 hdisj htp hp
        rcases hdisj with h0 | ⟨h2, e1, e2⟩
        · simp at h0
        · injection e1 with e1
          subst e1
          rw [hh] at e2
          simp at e2
      · simp [outc, isEmit]
    | none =>
      cases tp with
      | some p =>
        cases hp : mapGet st.onlinePeers p with
        | some sid =>
          have outc : sendOutcome st (some h) (some p) d i
              = ([Effect.dbInsert i, Effect.emit sid i d], SendResponse.ok true) := by
            unfold sendOutcome
            dsimp only
            simp only [hh, hp]
          refine ⟨?_, ?_, ?_, ?_, ?_⟩
          · simp [outc]
          · simp [outc, isEmit]
          · intro h2 sid2 hh2 hg
            injection hh2 with he
            subst he
            rw [hh] at hg
            simp at hg
          · intro p2 sid2 _ htp hp2
            injection htp with he
            subst he
            rw [hp] at hp2
            injection hp2 with hg2
            subst hg2
            simp [outc]
          · simp [outc, isEmit]
        | none =>
          have outc : sendOutcome st (some h) (some p) d i
              = ([Effect.dbInsert i], SendResponse.ok false) := by
            unfold sendOutcome
            dsimp only
            simp only [hh, hp]
          refine ⟨?_, ?_, ?_, ?_, ?_⟩
          · simp [outc]
          · simp [outc]
          · intro h2 sid2 hh2 hg
            injection hh2 with he
            subst he
            rw [hh] at hg
            simp at hg
          · intro p2 sid2 _ htp hp2
            injection htp with he
            subst he
            rw [hp] at hp2
            simp at hp2
          · simp [outc, isEmit]
      | none =>
        have outc : sendOutcome st (some h) none d i
            = ([Effect.dbInsert i], SendResponse.ok false) := by
          unfold sendOutcome
          dsimp only
          simp only [hh]
        refine ⟨?_, ?_, ?_, ?_, ?_⟩
        · simp [outc]
        · simp [outc]
        · intro h2 sid2 hh2 hg
          injection hh2 with he
          subst he
          rw [hh] at hg
          simp at hg
        · intro p2 sid2 _ htp _
          simp at htp
        · simp [outc, isEmit]
  | none =>
    cases tp with
    | some p =>
      cases hp : mapGet st.onlinePeers p with
      | some sid =>
        have outc : sendOutcome st none (some p) d i
            = ([Effect.dbInsert i, Effect.emit sid i d], SendResponse.ok true) := by
          unfold sendOutcome
          dsimp only
          simp only [hp]
        refine ⟨?_, ?_, ?_, ?_, ?_⟩
        · simp [outc]
        · simp [outc, isEmit]
        · intro h2 sid2 hh2 _
          simp at hh2
        · intro p2 sid2 _ htp hp2
          injection htp with he
          subst he
          rw [hp] at hp2
          injection hp2 with hg2
          subst hg2
          simp [outc]
        · simp [outc, isEmit]
      | none =>
        have outc : sendOutcome st none (some p) d i
            = ([Effect.dbInsert i], SendResponse.ok false) := by
          unfold sendOutcome
          dsimp only
          simp only [hp]
        refine ⟨?_, ?_, ?_, ?_, ?_⟩
        · simp [outc]
        · simp [outc]
        · intro h2 sid2 hh2 _
          simp at hh2
        · intro p2 sid2 _ htp hp2
          injection htp with he
          subst he
          rw [hp] at hp2
          simp at hp2
        · simp [outc, isEmit]
    | none => exact absurd ⟨rfl, rfl⟩ hr

/-- A server state with one online peer and one online hash, used by the C5
witness. -/
def liveState : ServerState := ⟨[], [], [], [("P", "SP")], [("H", "SH")]⟩

/-- A send request naming both recipients, used by the C5 witness. -/
def liveReq : SendRequest := ⟨some "H", some "P", some "d", some "i"⟩

theorem send_store_then_deliver_witness :
    (handleSend liveState liveReq 3).2.1.head? = some (Effect.dbInsert "i")
  ∧ (∀ e ∈ (handleSend liveState liveReq 3).2.1.tail, isEmit e = true)
  ∧ (∀ h sid, liveReq.toHash = some h → mapGet liveState.onlineHashes h = some sid →
       (handleSend liveState liveReq 3).2.1 = [Effect.dbInsert "i", Effect.emit sid "i" "d"]
     ∧ ∀ peers2 : SMap,
         (handleSend { liveState with onlinePeers := peers2 } liveReq 3).2
           = (handleSend liveState liveReq 3).2)
  ∧ (∀ p sid,
       (liveReq.toHash = none ∨
         ∃ h, liveReq.toHash = some h ∧ mapGet liveState.onlineHashes h = none) →
       liveReq.toPeer = some p → mapGet liveState.onlinePeers p = some sid →
       (handleSend liveState liveReq 3).2.1 = [Effect.dbInsert "i", Effect.emit sid "i" "d"])
  ∧ (handleSend liveState liveReq 3).2.2
      = SendResponse.ok ((handleSend liveState liveReq 3).2.1.any isEmit) :=
  send_store_then_deliver liveState liveReq 3 "i" "d" rfl rfl (by decide)

/-- C6 counterexample: a sender registered with both a peer id and a hash
has its signal forwarded tagged with its peer id, not its hash, against the
claimed hash preference. -/
theorem signal_tag_prefers_peerId_cx :
    handleSignal ⟨[], [], [], [("t", "T")], []⟩ ⟨"S", some "p", some "h"⟩ "t" "d"
      = [OutEvent.signal "T" (some "p") "d"]
  ∧ ("p" : String) ≠ "h" := by decide

/-- C6 amended: if the target identifier resolves in the presence registry
(peer map first, then hash map) the signal or typing event is forwarded to
the resolved handle tagged with the sender's own identifier, preferring the
sender's peer id when both a peer id and a hash are registered; an
unresolved target is silently dropped, with no event and no error to the
sender. -/
theorem signal_typing_forwarding (st : ServerState) (sock : Socket)
    (toId data : String) (isTyping : Bool) :
    (∀ tid, lookup st toId = some tid →
        handleSignal st sock toId data
          = [OutEvent.signal tid (sock.peerId.orElse (fun _ => sock.mobileHash)) data]
      ∧ handleTyping st sock toId isTyping
          = [OutEvent.typing tid (sock.peerId.orElse (fun _ => sock.mobileHash)) isTyping])
  ∧ (lookup st toId = none →
        handleSignal st sock toId data = [] ∧ handleTyping st sock toId isTyping = [])
  ∧ (∀ pid, sock.peerId = some pid →
        sock.peerId.orElse (fun _ => sock.mobileHash) = some pid) := by
  refine ⟨?_, ?_, ?_⟩
  · intro tid hl
    unfold handleSignal handleTyping
    rw [hl]
    exact ⟨rfl, rfl⟩
  · intro hl
    unfold handleSignal handleTyping
    rw [hl]
    exact ⟨rfl, rfl⟩
  · intro pid hp
    rw [hp]
    rfl

theorem signal_typing_forwarding_witness :
    handleSignal ⟨[], [], [], [("t", "T")], []⟩ ⟨"S", some "p", some "h"⟩ "t" "d"
      = [OutEvent.signal "T"
          ((Socket.peerId ⟨"S", some "p", some "h"⟩).orElse
            (fun _ => Socket.mobileHash ⟨"S", some "p", some "h"⟩)) "d"]
  ∧ handleTyping ⟨[], [], [], [("t", "T")], []⟩ ⟨"S", some "p", some "h"⟩ "t" true
      = [OutEvent.typing "T"
          ((Socket.peerId ⟨"S", some "p", some "h"⟩).orElse
            (fun _ => Socket.mobileHash ⟨"S", some "p", some "h"⟩)) true] :=
  (signal_typing_forwarding ⟨[], [], [], [("t", "T")], []⟩
    ⟨"S", some "p", some "h"⟩ "t" "d" true).1 "T" (by decide)

/-! Lemmas about identity row lookup after an upsert. -/

theorem find_replaced_identity (ids : List Identity) (row : Identity)
    (hmem : ids.any (fun x => decide (x.username = row.username)) = true) :
    List.find? (fun x => decide (x.username = row.username))
      (ids.map (fun x => if x.username = row.username then row else x)) = some row := by
  induction ids with
  | nil => simp at hmem
  | cons i rest ih =>
    by_cases h : i.username = row.username
    · simp [h]
    · have hrest : rest.any (fun x => decide (x.username = row.username)) = true := by
        simpa [h] using hmem
      simp [h, ih hrest]

theorem find_appended_identity (ids : List Identity) (row : Identity)
    (hfresh : ids.any (fun x => decide (x.username = row.username)) = false) :
    List.find? (fun x => decide (x.username = row.username)) (ids ++ [row]) = some row := by
  induction ids with
  | nil => simp
  | cons i rest ih =>
    have h : ¬(i.username = row.username) := by
      intro he
      simp [he] at hfresh
    have hrest : rest.any (fun x => decide (x.username = row.username)) = false := by
      simpa [h] using hfresh
    simp [h, ih hrest]

theorem findIdentity_saveIdentity (ids : List Identity) (row : Identity) :
    findIdentity (saveIdentity ids row) row.username = some row := by
  unfold findIdentity saveIdentity
  cases hmem : ids.any (fun x => decide (x.username = row.username)) with
  | true =>
    rw [if_pos rfl]
    exact find_replaced_identity ids row hmem
  | false =>
    rw [if_neg (by simp)]
    exact find_appended_identity ids row hmem

/-- Corollary of `findIdentity_saveIdentity` with the row spelled out. -/
theorem findIdentity_saveIdentity_mk (ids : List Identity) (u b : String)
    (pd dd : Option String) (ts : Nat) :
    findIdentity (saveIdentity ids ⟨u, b, pd, dd, ts⟩) u = some ⟨u, b, pd, dd, ts⟩ :=
  findIdentity_saveIdentity ids ⟨u, b, pd, dd, ts⟩

/-- Scenario step for the C4 counterexample: first upsert with peer id P1. -/
def upsert1 : ServerState × IdentityResponse :=
  handleIdentity emptyState ⟨some "h", some "b", some "P1", none⟩ 1

/-- Scenario step for the C4 counterexample: second upsert with a different
peer id P2. -/
def upsert2 : ServerState × IdentityResponse :=
  handleIdentity upsert1.1 ⟨some "h", some "b2", some "P2", none⟩ 2

/-- C4 counterexample: upserting hash "h" first with peer id "P1" and then
with a different peer id "P2" appends the claimed PEERID_CHANGE record, but
the second response is the bare success object with no peerIdChanged field
at all, against the claim that the response reports peerIdChanged true. -/
theorem upsert_response_no_peerIdChanged_cx :
    upsert2.1.history
      = [⟨"h", none, none, "P1", "FIRST_REGISTRATION", 1⟩,
         ⟨"h", none, some "P1", "P2", "PEERID_CHANGE", 2⟩]
  ∧ respField upsert2.2 "peerIdChanged" = none := by decide

/-- C4 amended: the peer-id history is maintained exactly as claimed - a
first-ever upsert with a peer id appends one FIRST_REGISTRATION record with
no old peer id, an upsert whose supplied peer id differs from the stored one
(both present) appends one PEERID_CHANGE record with oldPeerId the stored
value and newPeerId the supplied value, and an upsert whose supplied peer id
equals the stored one appends no record - but the response of a successful
upsert is always the bare success object and reports no peerIdChanged
flag. -/
theorem identity_history_maintenance (st : ServerState) (h blob : String)
    (dn : Option String) (now : Nat) :
    (∀ p, findIdentity st.identities h = none →
       (handleIdentity st ⟨some h, some blob, some p, dn⟩ now).1.history
         = st.history ++ [⟨h, dn, none, p, "FIRST_REGISTRATION", now⟩])
  ∧ (∀ e p1 p2, findIdentity st.identities h = some e → e.peer_id = some p1 → p1 ≠ p2 →
       (handleIdentity st ⟨some h, some blob, some p2, dn⟩ now).1.history
         = st.history ++ [⟨h, dn, some p1, p2, "PEERID_CHANGE", now⟩])
  ∧ (∀ e p, findIdentity st.identities h = some e → e.peer_id = some p →
       (handleIdentity st ⟨some h, some blob, some p, dn⟩ now).1.history = st.history)
  ∧ (∀ pid, (handleIdentity st ⟨some h, some blob, pid, dn⟩ now).2
       = IdentityResponse.ok [("success", JsonVal.bool true)]) := by
  refine ⟨?_, ?_, ?_, ?_⟩
  · intro p hnone
    simp [handleIdentity, hnone]
  · intro e p1 p2 he hp1 hne
    simp [handleIdentity, he, hp1, hne]
  · intro e p he hp
    simp [handleIdentity, he, hp]
  · intro pid
    rfl

theorem identity_history_maintenance_witness :
    (handleIdentity ⟨[], [⟨"h", "b", some "P1", none, 1⟩], [], [], []⟩
        ⟨some "h", some "b2", some "P2", none⟩ 2).1.history
      = [⟨"h", none, some "P1", "P2", "PEERID_CHANGE", 2⟩] := by
  have := (identity_history_maintenance ⟨[], [⟨"h", "b", some "P1", none, 1⟩], [], [], []⟩
    "h" "b2" none 2).2.1 ⟨"h", "b", some "P1", none, 1⟩ "P1" "P2" (by decide) rfl (by decide)
  simpa using this

/-- C7: directory lookup for a hash with no identity record reports found
false; after any upsert for that hash, even one supplying no peer id, it
reports found true, with the peer id possibly absent (none when there was no
record and no peer id was supplied). -/
theorem directory_lookup_found (st : ServerState) (h blob : String)
    (pid dn : Option String) (now : Nat) :
    (findIdentity st.identities h = none → lookupDirectory st.identities h = .notFound)
  ∧ (∃ pd dd,
       lookupDirectory (handleIdentity st ⟨some h, some blob, pid, dn⟩ now).1.identities h
         = .found pd dd)
  ∧ (findIdentity st.identities h = none →
       ∃ dd,
         lookupDirectory (handleIdentity st ⟨some h, some blob, none, dn⟩ now).1.identities h
           = .found none dd) := by
  refine ⟨?_, ?_, ?_⟩
  · intro hnone
    unfold lookupDirectory
    rw [hnone]
  · exact ⟨_, _, by
      unfold lookupDirectory handleIdentity
      dsimp only
      rw [findIdentity_saveIdentity_mk]⟩
  · intro hnone
    exact ⟨_, by
      unfold lookupDirectory handleIdentity
      dsimp only
      rw [hnone]
      dsimp only [Option.orElse]
      rw [findIdentity_saveIdentity_mk]⟩

theorem directory_lookup_found_witness :
    (findIdentity ([] : List Identity) "h" = none →
       lookupDirectory ([] : List Identity) "h" = .notFound)
  ∧ (∃ pd dd,
       lookupDirectory
         (handleIdentity ⟨[], [], [], [], []⟩ ⟨some "h", some "b", none, none⟩ 4).1.identities "h"
         = .found pd dd)
  ∧ (findIdentity ([] : List Identity) "h" = none →
       ∃ dd,
         lookupDirectory
           (handleIdentity ⟨[], [], [], [], []⟩ ⟨some "h", some "b", none, none⟩ 4).1.identities "h"
           = .found none dd) :=
  directory_lookup_found ⟨[], [], [], [], []⟩ "h" "b" none none 4

/-- C8: an upsert on an existing hash always overwrites the encrypted blob
with the supplied value, keeps the stored peer id when none is supplied, and
keeps the stored display name when none is supplied. -/
theorem identity_upsert_frame (st : ServerState) (h blob : String)
    (pid dd : Option String) (now : Nat) (e : Identity)
    (he : findIdentity st.identities h = some e) :
    (findIdentity (handleIdentity st ⟨some h, some blob, none, dd⟩ now).1.identities h).map
        Identity.peer_id = some e.peer_id
  ∧ (findIdentity (handleIdentity st ⟨some h, some blob, pid, none⟩ now).1.identities h).map
        Identity.display_name = some e.display_name
  ∧ (findIdentity (handleIdentity st ⟨some h, some blob, pid, dd⟩ now).1.identities h).map
        Identity.encrypted_blob = some blob := by
  refine ⟨?_, ?_, ?_⟩
  · unfold handleIdentity
    dsimp only
    rw [he]
    dsimp only
    rw [findIdentity_saveIdentity_mk]
    rfl
  · unfold handleIdentity
    dsimp only
    rw [he]
    dsimp only
    rw [findIdentity_saveIdentity_mk]
    cases pid <;> rfl
  · unfold handleIdentity
    dsimp only
    rw [he]
    dsimp only
    rw [findIdentity_saveIdentity_mk]
    rfl

theorem identity_upsert_frame_witness :
    (findIdentity
        (handleIdentity ⟨[], [⟨"h", "b", some "P", some "N", 1⟩], [], [], []⟩
          ⟨some "h", some "b2", none, some "N2"⟩ 2).1.identities "h").map
        Identity.peer_id = some (Identity.peer_id ⟨"h", "b", some "P", some "N", 1⟩)
  ∧ (findIdentity
        (handleIdentity ⟨[], [⟨"h", "b", some "P", some "N", 1⟩], [], [], []⟩
          ⟨some "h", some "b2", some "P2", none⟩ 2).1.identities "h").map
        Identity.display_name = some (Identity.display_name ⟨"h", "b", some "P", some "N", 1⟩)
  ∧ (findIdentity
        (handleIdentity ⟨[], [⟨"h", "b", some "P", some "N", 1⟩], [], [], []⟩
          ⟨some "h", some "b2", some "P2", some "N2"⟩ 2).1.identities "h").map
        Identity.encrypted_blob = some "b2" :=
  identity_upsert_frame ⟨[], [⟨"h", "b", some "P", some "N", 1⟩], [], [], []⟩
    "h" "b2" (some "P2") (some "N2") 2 ⟨"h", "b", some "P", some "N", 1⟩ (by decide)

end GhostRelay
